import Mathlib

/-!
Verification of the `stock_news_discord.py` pipeline: a shallow embedding of
its data model and operations in Lean 4, together with theorems settling the
specification's claims.

Modelling conventions:
* a Python `str` is embedded as `List Char` (`Str` below);
* the external services (news API, Google translator, Discord webhook) are
  oracles passed in as parameters; every observable side effect (HTTP request,
  webhook post, `print` diagnostic) is recorded in an explicit `Trace`;
* a raised Python exception is an `Except.error` value that the callers
  propagate exactly as the source's control flow does.
-/

namespace StockNews


/-- A Python string, embedded as its list of characters. -/
abbrev Str := List Char

/-- Whitespace as recognised by Python's `str.strip()` / `str.isspace()`
(restricted to the ASCII whitespace characters, which are the only ones
relevant to this program). -/
def pyIsSpace (c : Char) : Bool :=
  c = ' ' || c = '\t' || c = '\n' || c = '\r' || c = '\x0b' || c = '\x0c'

/-- Python's `s.strip()`: remove leading and trailing whitespace. -/
def pyStrip (s : Str) : Str :=
  ((s.dropWhile pyIsSpace).reverse.dropWhile pyIsSpace).reverse

/-- `allWS s` holds when every character of `s` is whitespace, i.e. exactly
when Python's `s.strip()` is falsy. -/
def allWS (s : Str) : Bool := s.all pyIsSpace

/-- Python's `message.split("\n")`: split on every newline character.
`splitNl [] = [[]]`, matching `"".split("\n") == [""]`. -/
def splitNl : Str → List Str
  | [] => [[]]
  | c :: cs =>
    if c = '\n' then [] :: splitNl cs
    else (splitNl cs).modifyHead (fun p => c :: p)

/-- Join a list of lines, appending a newline after each line.  This is the
shape of the `buffer` accumulated by `send_to_discord`
(`buffer += line + "\n"`). -/
def joinNl (ls : List Str) : Str := (ls.map (fun l => l ++ ['\n'])).flatten

/-- The message-size threshold of the notifier (`max_len = 1900`). -/
def max_len : Nat := 1900

/-- The chunking loop of `send_to_discord`, returning the list of chunk
contents posted to the webhook, in order:

    for line in lines:
        if len(buffer) + len(line) + 1 > max_len:
            _post_discord(buffer)
            buffer = line + "\n"
        else:
            buffer += line + "\n"
    if buffer.strip():
        _post_discord(buffer)
-/
def sendGo (buffer : Str) : List Str → List Str
  | [] => if pyStrip buffer = [] then [] else [buffer]
  | line :: rest =>
    if max_len < buffer.length + line.length + 1 then
      buffer :: sendGo (line ++ ['\n']) rest
    else
      sendGo (buffer ++ line ++ ['\n']) rest

/-- The lines carried by one posted chunk: every chunk is a concatenation of
lines each followed by `'\n'`, so splitting it on newlines always leaves a
final empty fragment, which we drop. -/
def chunkLines (c : Str) : List Str := (splitNl c).dropLast

/-! ## Data model and effect trace -/

/-- An article as assembled by `fetch_korean_stock_news`:
`{"title": ..., "description": ..., "url": ...}`. -/
structure Article where
  title : Str
  description : Str
  url : Str
deriving DecidableEq

/-- A raw article record as it appears in the news API's JSON response;
each field may be missing/null (`a.get("title")` etc.). -/
structure RawArticle where
  title : Option Str
  description : Option Str
  url : Option Str
deriving DecidableEq

/-- One `print` diagnostic of the program, as a structured event.  Each
constructor stands for one `print(...)` call site of the source. -/
inductive LogEntry where
  /-- `print("한국 주식 관련 Top 뉴스 수집 및 디스코드 전송 시작...")` -/
  | startMsg
  /-- `print("NewsAPI 응답 요약:", data.get("status"), data.get("totalResults"))` -/
  | newsApiSummary (status : Option Str) (total : Option Nat)
  /-- `print("뉴스가 없습니다.")` -/
  | noNews
  /-- `print(f"번역 오류: {e}")` -/
  | translateError (e : Str)
  /-- `print("디스코드 전송 성공")` -/
  | discordOk
  /-- `print("디스코드 전송 실패:", resp.status_code, resp.text)` -/
  | discordFail (status : Nat)
  /-- `print("작업 완료")` -/
  | doneMsg
deriving DecidableEq

/-- The observable side effects of a run, accumulated in program order. -/
structure Trace where
  /-- page sizes of the GET requests issued to the news API -/
  newsRequests : List Nat := []
  /-- `(text, target_lang)` of each call to the external translation service -/
  translateCalls : List (Str × Str) := []
  /-- content of each webhook POST made by `_post_discord` -/
  webhookPosts : List Str := []
  /-- `print` diagnostics -/
  logs : List LogEntry := []
deriving DecidableEq

/-- The exceptions the program can raise:
`config` is the `RuntimeError` raised for a missing environment variable,
`upstream` is the `requests.HTTPError` from `resp.raise_for_status()`. -/
inductive RunError where
  | config (msg : Str)
  | upstream (status : Nat)
deriving DecidableEq

/-- Python truthiness of an optional string: `not x` is true when `x` is
`None` or the empty string. -/
def pyFalsy : Option Str → Bool
  | none => true
  | some [] => true
  | some (_ :: _) => false

/-- Python's `x or ""` on an optional string (used as `a.get("title") or ""`):
`None` and `""` both yield `""`. -/
def pyOr : Option Str → Str
  | none => []
  | some s => s

/-- Python's `data.get("articles", [])`. -/
def pyOrArticles : Option (List RawArticle) → List RawArticle
  | none => []
  | some l => l

/-- `RuntimeError("환경변수 NEWS_API_KEY 가 설정되어 있지 않습니다.")` -/
def newsKeyMissingMsg : Str := "환경변수 NEWS_API_KEY 가 설정되어 있지 않습니다.".data

/-- `RuntimeError("환경변수 DISCORD_WEBHOOK_URL 이 설정되어 있지 않습니다.")` -/
def webhookMissingMsg : Str := "환경변수 DISCORD_WEBHOOK_URL 이 설정되어 있지 않습니다.".data

/-- Boolean test that `p` occurs at the start of `l`. -/
def strStarts : Str → Str → Bool
  | [], _ => true
  | _ :: _, [] => false
  | p :: ps, c :: cs => if p = c then strStarts ps cs else false

/-- Boolean test that `needle` occurs contiguously somewhere in `hay`. -/
def strContains : Str → Str → Bool
  | [], needle => strStarts needle []
  | c :: cs, needle => strStarts needle (c :: cs) || strContains cs needle

/-- The news API's JSON response, reduced to the fields the program reads,
plus the HTTP status code consulted by `resp.raise_for_status()`. -/
structure NewsResponse where
  status : Nat
  bodyStatus : Option Str
  totalResults : Option Nat
  articles : Option (List RawArticle)
deriving DecidableEq

/-! ## News fetcher -/

/-- The article-processing loop of `fetch_korean_stock_news`:

    for a in articles:
        title = (a.get("title") or "").strip()
        desc = a.get("description") or ""
        url = a.get("url") or ""
        if not title:
            continue
        news_list.append({"title": title, "description": desc, "url": url})
-/
def fetch_filter : List RawArticle → List Article
  | [] => []
  | a :: rest =>
    if pyStrip (pyOr a.title) = [] then fetch_filter rest
    else
      { title := pyStrip (pyOr a.title)
        description := pyOr a.description
        url := pyOr a.url } :: fetch_filter rest

/-- `fetch_korean_stock_news(top_n)`: checks the `NEWS_API_KEY` credential,
issues one GET to the news endpoint (recorded in the trace), raises on a
non-success HTTP status (`raise_for_status` raises for 400–599), logs the
response summary, and returns the filtered article list. -/
def fetch_korean_stock_news (apiKey : Option Str) (top_n : Nat)
    (resp : NewsResponse) (t : Trace) : Except RunError (List Article) × Trace :=
  if pyFalsy apiKey then
    (Except.error (RunError.config newsKeyMissingMsg), t)
  else
    let t1 := { t with newsRequests := t.newsRequests ++ [top_n] }
    if 400 ≤ resp.status ∧ resp.status < 600 then
      (Except.error (RunError.upstream resp.status), t1)
    else
      let t2 := { t1 with
        logs := t1.logs ++ [LogEntry.newsApiSummary resp.bodyStatus resp.totalResults] }
      (Except.ok (fetch_filter (pyOrArticles resp.articles)), t2)

/-! ## Translator -/

/-- The external translation service:
`GoogleTranslator(source="ko", target=target_lang).translate(text)`, which
either returns a translation or raises (the error rendered as a string). -/
abbrev Translator := Str → Str → Except Str Str

/-- `translate_text(text, target_lang)`:

    if not text:
        return ""
    try:
        return GoogleTranslator(source="ko", target=target_lang).translate(text)
    except Exception as e:
        print(f"번역 오류: {e}")
        return text
-/
def translate_text (tr : Translator) (text target : Str) (t : Trace) : Str × Trace :=
  if text = [] then ([], t)
  else
    let t1 := { t with translateCalls := t.translateCalls ++ [(text, target)] }
    match tr text target with
    | Except.ok r => (r, t1)
    | Except.error e => (text, { t1 with logs := t1.logs ++ [LogEntry.translateError e] })

/-- `translate_news_list(news_list, dest_lang)`: per article, translate the
title, translate the description only when non-empty
(`translate_text(ko_desc, dest_lang) if ko_desc else ""`), and copy the url
through unchanged. -/
def translate_news_list (tr : Translator) (news : List Article) (dest : Str)
    (t : Trace) : List Article × Trace :=
  match news with
  | [] => ([], t)
  | item :: rest =>
    let r1 := translate_text tr item.title dest t
    let r2 := if item.description = [] then (([] : Str), r1.2)
              else translate_text tr item.description dest r1.2
    let r3 := translate_news_list tr rest dest r2.2
    ({ title := r1.1, description := r2.1, url := item.url } :: r3.1, r3.2)

/-- The translation-service calls that one article gives rise to (title, then
description when non-empty). -/
def transCallsOf (a : Article) (dest : Str) : List (Str × Str) :=
  (if a.title = [] then [] else [(a.title, dest)])
    ++ (if a.description = [] then [] else [(a.description, dest)])

/-! ## Message builder -/

/-- Decimal digit character, `48 + d` being the code point of `'0' + d`. -/
def digitChar (d : Nat) : Char := Char.ofNat (48 + d)

/-- Accumulator loop of decimal printing: prepend the digits of `n` to `acc`.
The first argument is fuel bounding the number of digit steps; any fuel of at
least `n` suffices. -/
def natToStrGo : Nat → Nat → Str → Str
  | 0, _, acc => acc
  | fuel + 1, n, acc =>
    if n = 0 then acc else natToStrGo fuel (n / 10) (digitChar (n % 10) :: acc)

/-- Decimal rendering of a natural number, as produced by `f"{i}"`. -/
def natToStr (n : Nat) : Str :=
  if n = 0 then ['0'] else natToStrGo n n []

/-- Python's `s.replace('\n', ' ')`. -/
def replaceNl (s : Str) : Str := s.map (fun c => if c = '\n' then ' ' else c)

/-- `f"{i}. {n['title']}"` -/
def numTitleLine (i : Nat) (n : Article) : Str := natToStr i ++ ". ".data ++ n.title

/-- `f"   - 요약: {n['description'].replace('\n', ' ').strip()}"` -/
def koSummaryLine (n : Article) : Str := "   - 요약: ".data ++ pyStrip (replaceNl n.description)

/-- `f"   링크: {n['url']}"` -/
def koLinkLine (n : Article) : Str := "   링크: ".data ++ n.url

/-- `f"   - Summary: {n['description'].replace('\n', ' ').strip()}"` -/
def enSummaryLine (n : Article) : Str := "   - Summary: ".data ++ pyStrip (replaceNl n.description)

/-- `f"   - 摘要: {n['description'].replace('\n', ' ').strip()}"` -/
def zhSummaryLine (n : Article) : Str := "   - 摘要: ".data ++ pyStrip (replaceNl n.description)

/-- The Korean section's per-article loop (`enumerate(ko_news, start=1)`):
title line, summary line when the description is non-empty, link line when
the url is non-empty, then a blank separator line. -/
def koSection (i : Nat) : List Article → List Str
  | [] => []
  | n :: rest =>
    [numTitleLine i n]
      ++ (if n.description = [] then [] else [koSummaryLine n])
      ++ (if n.url = [] then [] else [koLinkLine n])
      ++ [[]]
      ++ koSection (i + 1) rest

/-- The English section's per-article loop: title line, summary line when the
description is non-empty, blank separator line; no link line is emitted. -/
def enSection (i : Nat) : List Article → List Str
  | [] => []
  | n :: rest =>
    [numTitleLine i n]
      ++ (if n.description = [] then [] else [enSummaryLine n])
      ++ [[]]
      ++ enSection (i + 1) rest

/-- The Chinese section's per-article loop: title line, summary line when the
description is non-empty, blank separator line; no link line is emitted. -/
def zhSection (i : Nat) : List Article → List Str
  | [] => []
  | n :: rest =>
    [numTitleLine i n]
      ++ (if n.description = [] then [] else [zhSummaryLine n])
      ++ [[]]
      ++ zhSection (i + 1) rest

/-- The `lines` list assembled by `build_message`, before the final
`"\n".join(lines)`. -/
def build_message_lines (ko en zh : List Article) : List Str :=
  ["**오늘의 한국 주식 TOP 5 뉴스**\n".data]
    ++ ["=== 🇰🇷 한국어 ===".data] ++ koSection 1 ko
    ++ ["=== 🇺🇸 English ===".data] ++ enSection 1 en
    ++ ["=== 🇨🇳 中文(简体) ===".data] ++ zhSection 1 zh

/-- `build_message(ko_news, en_news, zh_news)`: `"\n".join(lines)`. -/
def build_message (ko en zh : List Article) : Str :=
  List.intercalate ['\n'] (build_message_lines ko en zh)

/-! ## Notifier -/

/-- `_post_discord(content)`: POST to the webhook (recorded in the trace) and
log success (status 200/204) or failure. -/
def post_discord (responder : Str → Nat) (content : Str) (t : Trace) : Trace :=
  let status := responder content
  let t1 := { t with webhookPosts := t.webhookPosts ++ [content] }
  if status = 200 ∨ status = 204 then
    { t1 with logs := t1.logs ++ [LogEntry.discordOk] }
  else
    { t1 with logs := t1.logs ++ [LogEntry.discordFail status] }

/-- The posting loop of `send_to_discord`, threading the effect trace; its
chunking behaviour is the pure function `sendGo`. -/
def sendLoop (responder : Str → Nat) (buffer : Str) (lines : List Str)
    (t : Trace) : Trace :=
  match lines with
  | [] => if pyStrip buffer = [] then t else post_discord responder buffer t
  | line :: rest =>
    if max_len < buffer.length + line.length + 1 then
      sendLoop responder (line ++ ['\n']) rest (post_discord responder buffer t)
    else
      sendLoop responder (buffer ++ line ++ ['\n']) rest t

/-- `send_to_discord(message)`: check the webhook credential, then run the
line-chunking loop over `message.split("\n")`. -/
def send_to_discord (webhookUrl : Option Str) (responder : Str → Nat)
    (message : Str) (t : Trace) : Except RunError Unit × Trace :=
  if pyFalsy webhookUrl then
    (Except.error (RunError.config webhookMissingMsg), t)
  else
    (Except.ok (), sendLoop responder [] (splitNl message) t)

/-- The webhook deliveries made by one `send_to_discord(message)` call (the
posts it appends to the ambient trace `t`). -/
def newPosts (webhookUrl : Option Str) (responder : Str → Nat)
    (message : Str) (t : Trace) : List Str :=
  ((send_to_discord webhookUrl responder message t).2.webhookPosts).drop
    t.webhookPosts.length

/-! ## Orchestrator -/

def TOP_N : Nat := 5

def enLang : Str := "en".data

def zhLang : Str := "chinese (simplified)".data

/-- The process environment and external world a run interacts with. -/
structure Env where
  newsApiKey : Option Str
  discordWebhookUrl : Option Str
  newsResponse : NewsResponse
  translator : Translator
  webhookResponder : Str → Nat

/-- `main()`: fetch, short-circuit on an empty list, translate twice, build
the digest, send it.  Raised exceptions propagate out as `Except.error`. -/
def main (env : Env) : Except RunError Unit × Trace :=
  match fetch_korean_stock_news env.newsApiKey TOP_N env.newsResponse
      { logs := [LogEntry.startMsg] } with
  | (Except.error e, t) => (Except.error e, t)
  | (Except.ok ko_news, t1) =>
    if ko_news = [] then
      (Except.ok (), { t1 with logs := t1.logs ++ [LogEntry.noNews] })
    else
      let en := translate_news_list env.translator ko_news enLang t1
      let zh := translate_news_list env.translator ko_news zhLang en.2
      let message := build_message ko_news en.1 zh.1
      match send_to_discord env.discordWebhookUrl env.webhookResponder message zh.2 with
      | (Except.error e, t4) => (Except.error e, t4)
      | (Except.ok _, t4) => (Except.ok (), { t4 with logs := t4.logs ++ [LogEntry.doneMsg] })


/-! ## Line classification in the digest -/

/-- The five characters every summary line of the digest starts with,
whatever the language (`"   - 요약: "`, `"   - Summary: "`, `"   - 摘要: "`
all begin with `"   - "`). -/
def sumMarker : Str := "   - ".data

/-- The prefix of every link line of the digest (`"   링크: "`). -/
def linkMarker : Str := "   링크: ".data

/-- A line of the digest is a summary line exactly when it starts with
`"   - "`: title lines start with a digit, the link line differs at its
fourth character, headers start with `*` or `=`, separators are empty. -/
def isSummaryLine (l : Str) : Bool := strStarts sumMarker l

/-- A line of the digest is a link line exactly when it starts with
`"   링크: "`. -/
def isLinkLine (l : Str) : Bool := strStarts linkMarker l

/-! ## Concrete fixtures for witnesses and counterexamples -/

/-- A configured webhook destination. -/
def urlW : Option Str := some "w".data

/-- A webhook that always answers 200. -/
def okResponder : Str → Nat := fun _ => 200

/-- A translation service that always succeeds. -/
def okTranslator : Translator := fun _ _ => Except.ok "t".data

/-- A translation service that always raises. -/
def errTranslator : Translator := fun _ _ => Except.error "boom".data

/-- A 2000-character message consisting of one single line. -/
def cexLongLine : Str := List.replicate 2000 'a'

/-- A 1901-character message: a 1899-character line, then a blank line. -/
def cexBlankTail : Str := List.replicate 1899 'a' ++ ['\n', ' ']

/-- A 2001-character message of two 1000-character lines. -/
def msgTwoLines : Str := List.replicate 1000 'a' ++ '\n' :: List.replicate 1000 'b'

/-- A message that is a single space. -/
def msgSpace : Str := [' ']

/-- A small two-line message. -/
def msgSmall : Str := "a\nb".data

/-- A message whose first (and only) line is exactly 1900 characters long. -/
def msgLongFirst : Str := List.replicate 1900 'a'

/-- A news API response with a success status and no articles. -/
def respEmpty : NewsResponse :=
  { status := 200, bodyStatus := some "ok".data, totalResults := some 0,
    articles := some [] }

/-- A raw article whose title is whitespace-only. -/
def rawBlank : RawArticle :=
  { title := some "  ".data, description := some "d".data, url := some "u".data }

/-- A raw article with a real title. -/
def rawGood : RawArticle :=
  { title := some " t ".data, description := none, url := some "u".data }

/-- A news API response carrying one blank-titled and one titled article. -/
def respMixed : NewsResponse :=
  { status := 200, bodyStatus := some "ok".data, totalResults := some 2,
    articles := some [rawBlank, rawGood] }

/-- An environment whose news API returns no articles. -/
def envEmpty : Env :=
  { newsApiKey := some "k".data, discordWebhookUrl := urlW,
    newsResponse := respEmpty, translator := okTranslator,
    webhookResponder := okResponder }

/-! ## Theorems -/

theorem pyStrip_eq_nil_iff (s : Str) : pyStrip s = [] ↔ allWS s = true := by
  unfold pyStrip allWS
  rw [List.reverse_eq_nil_iff, List.dropWhile_eq_nil_iff, List.all_eq_true]
  constructor
  · intro h x hx
    have hs := List.takeWhile_append_dropWhile pyIsSpace s
    rw [← hs] at hx
    rcases List.mem_append.mp hx with h1 | h1
    · exact List.mem_takeWhile_imp h1
    · exact h x (List.mem_reverse.mpr h1)
  · intro h x hx
    exact h x (List.Sublist.mem (List.mem_reverse.mp hx)
      (List.dropWhile_sublist pyIsSpace))

theorem splitNl_cons_nl (cs : Str) : splitNl ('\n' :: cs) = [] :: splitNl cs := by
  simp [splitNl]

theorem splitNl_cons_other {c : Char} (hc : c ≠ '\n') (cs : Str) :
    splitNl (c :: cs) = (splitNl cs).modifyHead (fun p => c :: p) := by
  simp [splitNl, hc]

theorem splitNl_ne_nil (s : Str) : splitNl s ≠ [] := by
  cases s with
  | nil => simp [splitNl]
  | cons c cs =>
    by_cases h : c = '\n'
    · simp [splitNl, h]
    · rw [splitNl_cons_other h]
      rcases hsp : splitNl cs with _ | ⟨p, ps⟩
      · exact absurd hsp (splitNl_ne_nil cs)
      · simp

theorem joinNl_nil : joinNl [] = [] := rfl

theorem joinNl_cons (l : Str) (ls : List Str) :
    joinNl (l :: ls) = l ++ '\n' :: joinNl ls := by
  simp [joinNl, List.append_assoc]

theorem joinNl_append (a b : List Str) :
    joinNl (a ++ b) = joinNl a ++ joinNl b := by
  simp [joinNl]

theorem splitNl_noNl {l : Str} (h : '\n' ∉ l) : splitNl l = [l] := by
  induction l with
  | nil => rfl
  | cons c cs ih =>
    have hc : c ≠ '\n' := fun hc => h (hc ▸ List.mem_cons_self c cs)
    have hcs : '\n' ∉ cs := fun hm => h (List.mem_cons_of_mem c hm)
    rw [splitNl_cons_other hc, ih hcs, List.modifyHead_cons]

theorem splitNl_append_noNl {l : Str} (s : Str) (h : '\n' ∉ l) :
    splitNl (l ++ '\n' :: s) = l :: splitNl s := by
  induction l with
  | nil => simp [splitNl]
  | cons c cs ih =>
    have hc : c ≠ '\n' := fun hc => h (hc ▸ List.mem_cons_self c cs)
    have hcs : '\n' ∉ cs := fun hm => h (List.mem_cons_of_mem c hm)
    rw [List.cons_append, splitNl_cons_other hc, ih hcs, List.modifyHead_cons]

theorem mem_splitNl_noNl : ∀ (s : Str), ∀ l ∈ splitNl s, '\n' ∉ l := by
  intro s
  induction s with
  | nil =>
    intro l hl
    simp only [splitNl, List.mem_singleton] at hl
    simp [hl]
  | cons c cs ih =>
    intro l hl
    by_cases hc : c = '\n'
    · subst hc
      rw [splitNl_cons_nl, List.mem_cons] at hl
      rcases hl with rfl | hl
      · simp
      · exact ih l hl
    · rw [splitNl_cons_other hc] at hl
      rcases hsp : splitNl cs with _ | ⟨p, ps⟩
      · exact absurd hsp (splitNl_ne_nil cs)
      · rw [hsp, List.modifyHead_cons, List.mem_cons] at hl
        rcases hl with rfl | hl
        · intro hmem
          rcases List.mem_cons.mp hmem with h | h
          · exact hc h.symm
          · exact ih p (hsp ▸ List.mem_cons_self p ps) h
        · exact ih l (hsp ▸ List.mem_cons_of_mem p hl)

theorem joinNl_splitNl : ∀ (s : Str), joinNl (splitNl s) = s ++ ['\n'] := by
  intro s
  induction s with
  | nil => simp [splitNl, joinNl]
  | cons c cs ih =>
    by_cases hc : c = '\n'
    · subst hc
      rw [splitNl_cons_nl, joinNl_cons, ih]
      simp
    · rcases hsp : splitNl cs with _ | ⟨p, ps⟩
      · exact absurd hsp (splitNl_ne_nil cs)
      · rw [splitNl_cons_other hc, hsp, List.modifyHead_cons]
        rw [hsp] at ih
        rw [joinNl_cons] at ih ⊢
        simp only [List.cons_append]
        rw [← ih]

theorem chunkLines_joinNl {ls : List Str} (h : ∀ l ∈ ls, '\n' ∉ l) :
    chunkLines (joinNl ls) = ls := by
  unfold chunkLines
  have hsp : splitNl (joinNl ls) = ls ++ [[]] := by
    induction ls with
    | nil => simp [joinNl, splitNl]
    | cons l ls ih =>
      rw [joinNl_cons, splitNl_append_noNl _ (h l (List.mem_cons_self l ls))]
      rw [ih (fun x hx => h x (List.mem_cons_of_mem l hx))]
      simp
  rw [hsp, List.dropLast_concat]

theorem take_app (xs ys : List Str) (n : Nat) :
    (xs ++ ys).take (xs.length + n) = xs ++ ys.take n := by
  induction xs with
  | nil => simp
  | cons x xs ih => simp [List.length_cons, Nat.succ_add, ih]

theorem drop_app (xs ys : List Str) (n : Nat) :
    (xs ++ ys).drop (xs.length + n) = ys.drop n := by
  induction xs with
  | nil => simp
  | cons x xs ih => simp [List.length_cons, Nat.succ_add, ih]

theorem getLastD_mem_drop :
    ∀ (l : List Str) (k : Nat) (d : Str), k < l.length → l.getLastD d ∈ l.drop k := by
  intro l
  induction l with
  | nil => intro k d h; simp at h
  | cons x xs ih =>
    intro k d h
    cases k with
    | zero =>
      rw [List.drop_zero, List.getLastD_cons]
      cases xs with
      | nil => simp
      | cons y ys =>
        exact List.mem_cons_of_mem x
          (by simpa using ih 0 x (by simp [Nat.succ_pos]))
    | succ k =>
      rw [List.drop_succ_cons, List.getLastD_cons]
      exact ih k x (Nat.lt_of_succ_lt_succ h)

/-- Every buffer that `send_to_discord` ever posts is at most `max_len`
characters long, provided each individual line of the input is at most
`max_len - 1` characters long (so that `line + "\n"` fits the threshold). -/
theorem sendGo_len :
    ∀ (lines : List Str) (buffer : Str),
      (∀ l ∈ lines, l.length ≤ max_len - 1) → buffer.length ≤ max_len →
      ∀ c ∈ sendGo buffer lines, c.length ≤ max_len := by
  intro lines
  induction lines with
  | nil =>
    intro buffer _ hbuf c hc
    simp only [sendGo] at hc
    split at hc
    · simp at hc
    · rw [List.mem_singleton] at hc
      exact hc ▸ hbuf
  | cons line rest ih =>
    intro buffer hl hbuf c hc
    have hline : line.length ≤ max_len - 1 := hl line (List.mem_cons_self line rest)
    have hrest : ∀ l ∈ rest, l.length ≤ max_len - 1 :=
      fun l h => hl l (List.mem_cons_of_mem line h)
    simp only [sendGo] at hc
    split at hc
    · rcases List.mem_cons.mp hc with rfl | hc
      · exact hbuf
      · refine ih (line ++ ['\n']) hrest ?_ c hc
        have : line.length + 1 ≤ max_len := by
          have : (1 : Nat) ≤ max_len := by decide
          omega
        simpa using this
    · rename_i hcond
      refine ih (buffer ++ line ++ ['\n']) hrest ?_ c hc
      have : buffer.length + line.length + 1 ≤ max_len := Nat.not_lt.mp hcond
      simpa [List.length_append] using this

theorem allWS_joinNl {ls : List Str} (h : allWS (joinNl ls) = true) :
    ∀ l ∈ ls, allWS l = true := by
  induction ls with
  | nil => simp
  | cons l ls ih =>
    rw [joinNl_cons] at h
    unfold allWS at h
    simp only [List.all_append, List.all_cons, Bool.and_eq_true] at h
    obtain ⟨h1, _, h2⟩ := h
    intro x hx
    rcases List.mem_cons.mp hx with rfl | hx
    · exact h1
    · exact ih h2 x hx

/-- Main structural invariant of the chunking loop: starting from a buffer
that is a newline-join of already-consumed lines, the posted chunks carry, in
order, a prefix of all the lines (buffered plus remaining); only a
whitespace-only tail can be left unposted; and every chunk is itself a
newline-join of whole lines. -/
theorem sendGo_spec :
    ∀ (lines : List Str) (bufLines : List Str),
      (∀ l ∈ bufLines, '\n' ∉ l) → (∀ l ∈ lines, '\n' ∉ l) →
      ∃ k, k ≤ (bufLines ++ lines).length ∧
        ((sendGo (joinNl bufLines) lines).map chunkLines).flatten
            = (bufLines ++ lines).take k ∧
        (∀ l ∈ (bufLines ++ lines).drop k, allWS l = true) ∧
        (∀ c ∈ sendGo (joinNl bufLines) lines, c = joinNl (chunkLines c)) := by
  intro lines
  induction lines with
  | nil =>
    intro bufLines hb _
    simp only [sendGo, List.append_nil]
    by_cases hstrip : pyStrip (joinNl bufLines) = []
    · refine ⟨0, Nat.zero_le _, ?_, ?_, ?_⟩
      · simp [hstrip]
      · intro l hl
        rw [List.drop_zero] at hl
        exact allWS_joinNl ((pyStrip_eq_nil_iff _).mp hstrip) l hl
      · simp [hstrip]
    · refine ⟨bufLines.length, Nat.le_refl _, ?_, ?_, ?_⟩
      · simp [hstrip, chunkLines_joinNl hb, List.take_length]
      · simp [List.drop_length]
      · intro c hc
        simp only [if_neg hstrip, List.mem_singleton] at hc
        subst hc
        rw [chunkLines_joinNl hb]
  | cons line rest ih =>
    intro bufLines hb hl
    have hline : '\n' ∉ line := hl line (List.mem_cons_self line rest)
    have hrest : ∀ l ∈ rest, '\n' ∉ l := fun l h => hl l (List.mem_cons_of_mem line h)
    simp only [sendGo]
    by_cases hcond : max_len < (joinNl bufLines).length + line.length + 1
    · rw [if_pos hcond]
      have hsingle : ∀ l ∈ [line], '\n' ∉ l := by
        intro l hl'
        rw [List.mem_singleton] at hl'
        exact hl' ▸ hline
      have hjoin : line ++ ['\n'] = joinNl [line] := by simp [joinNl]
      rw [hjoin]
      rcases ih [line] hsingle hrest with ⟨k, hk, hjoin', hdrop, hchunks⟩
      refine ⟨bufLines.length + k, ?_, ?_, ?_, ?_⟩
      · simp only [List.length_append, List.length_cons, List.singleton_append] at hk ⊢
        omega
      · rw [List.map_cons, List.flatten_cons, chunkLines_joinNl hb, hjoin']
        have : bufLines ++ line :: rest = bufLines ++ ([line] ++ rest) := by simp
        rw [this, take_app]
      · intro l hlmem
        have : bufLines ++ line :: rest = bufLines ++ ([line] ++ rest) := by simp
        rw [this, drop_app] at hlmem
        exact hdrop l hlmem
      · intro c hc
        rcases List.mem_cons.mp hc with rfl | hc
        · rw [chunkLines_joinNl hb]
        · exact hchunks c hc
    · rw [if_neg hcond]
      have happ : joinNl bufLines ++ line ++ ['\n'] = joinNl (bufLines ++ [line]) := by
        rw [joinNl_append]
        simp [joinNl, List.append_assoc]
      rw [happ]
      have hb' : ∀ l ∈ bufLines ++ [line], '\n' ∉ l := by
        intro l hl'
        rcases List.mem_append.mp hl' with h | h
        · exact hb l h
        · rw [List.mem_singleton] at h
          exact h ▸ hline
      rcases ih (bufLines ++ [line]) hb' hrest with ⟨k, hk, hjoin', hdrop, hchunks⟩
      have hassoc : (bufLines ++ [line]) ++ rest = bufLines ++ line :: rest := by simp
      rw [hassoc] at hk hjoin' hdrop
      exact ⟨k, hk, hjoin', hdrop, hchunks⟩

theorem flatten_eq_joinNl :
    ∀ (cs : List Str), (∀ c ∈ cs, c = joinNl (chunkLines c)) →
      cs.flatten = joinNl ((cs.map chunkLines).flatten) := by
  intro cs
  induction cs with
  | nil => simp [joinNl]
  | cons c cs ih =>
    intro h
    rw [List.map_cons, List.flatten_cons, List.flatten_cons, joinNl_append]
    rw [ih (fun x hx => h x (List.mem_cons_of_mem c hx))]
    rw [← h c (List.mem_cons_self c cs)]

theorem flatten_length_le :
    ∀ (cs : List Str), (∀ c ∈ cs, c.length ≤ max_len) →
      cs.flatten.length ≤ max_len * cs.length := by
  intro cs
  induction cs with
  | nil => simp
  | cons c cs ih =>
    intro h
    rw [List.flatten_cons, List.length_append, List.length_cons, Nat.mul_succ]
    have h1 := h c (List.mem_cons_self c cs)
    have h2 := ih (fun x hx => h x (List.mem_cons_of_mem c hx))
    omega

theorem sendGo_nil_eq (buffer : Str) :
    sendGo buffer [] = if pyStrip buffer = [] then [] else [buffer] := rfl

theorem sendGo_cons_eq (buffer line : Str) (rest : List Str) :
    sendGo buffer (line :: rest) =
      if max_len < buffer.length + line.length + 1 then
        buffer :: sendGo (line ++ ['\n']) rest
      else sendGo (buffer ++ line ++ ['\n']) rest := rfl

theorem post_discord_posts (r : Str → Nat) (c : Str) (t : Trace) :
    (post_discord r c t).webhookPosts = t.webhookPosts ++ [c] := by
  unfold post_discord
  by_cases h : r c = 200 ∨ r c = 204 <;> simp [h]

theorem sendLoop_posts (r : Str → Nat) :
    ∀ (lines : List Str) (buffer : Str) (t : Trace),
      (sendLoop r buffer lines t).webhookPosts = t.webhookPosts ++ sendGo buffer lines := by
  intro lines
  induction lines with
  | nil =>
    intro buffer t
    simp only [sendLoop, sendGo]
    split
    · simp
    · rw [post_discord_posts]
  | cons line rest ih =>
    intro buffer t
    simp only [sendLoop, sendGo]
    by_cases hcond : max_len < buffer.length + line.length + 1
    · rw [if_pos hcond, if_pos hcond, ih, post_discord_posts]
      simp
    · rw [if_neg hcond, if_neg hcond, ih]

theorem newPosts_eq (url : Option Str) (r : Str → Nat) (msg : Str) (t : Trace)
    (h : pyFalsy url = false) :
    newPosts url r msg t = sendGo [] (splitNl msg) := by
  unfold newPosts send_to_discord
  rw [if_neg (by simp [h])]
  rw [sendLoop_posts, List.drop_left]

/-- A replicated non-whitespace character is not whitespace-only. -/
theorem allWS_replicate_false (n : Nat) (c : Char) (hn : n ≠ 0)
    (hc : pyIsSpace c = false) : allWS (List.replicate n c) = false := by
  cases n with
  | zero => exact absurd rfl hn
  | succ n => simp only [allWS, List.replicate_succ, List.all_cons, hc, Bool.false_and]

/-- C10: if the first line of the message is already 1900 characters or
longer, the very first webhook call delivers the empty string — the
still-empty buffer is flushed before the over-long line is appended. -/
theorem send_first_chunk_empty (url : Option Str) (r : Str → Nat) (msg : Str)
    (t : Trace) (hurl : pyFalsy url = false)
    (hfirst : max_len ≤ ((splitNl msg).headD []).length) :
    (newPosts url r msg t).head? = some [] := by
  rw [newPosts_eq url r msg t hurl]
  rcases hsp : splitNl msg with _ | ⟨l, rest⟩
  · exact absurd hsp (splitNl_ne_nil msg)
  · rw [hsp] at hfirst
    simp only [List.headD_cons] at hfirst
    rw [sendGo_cons_eq, if_pos (by simp only [List.length_nil]; omega)]
    rfl

/-- Witness for C10 at a message whose single line is 1900 characters. -/
theorem send_first_chunk_empty_witness :
    (newPosts urlW okResponder msgLongFirst {}).head? = some [] := by
  refine send_first_chunk_empty urlW okResponder msgLongFirst {} rfl ?_
  rw [show splitNl msgLongFirst = [msgLongFirst] from
    splitNl_noNl (by simp only [msgLongFirst, List.mem_replicate]; decide)]
  simp only [List.headD_cons, msgLongFirst, List.length_replicate, max_len, le_refl]

/-- C1 (amended): for every message longer than 1900 characters, in which
every line is at most 1899 characters long and whose last line is not
whitespace-only, `send_to_discord` issues more than one webhook delivery
call and no delivered chunk exceeds 1900 characters. -/
theorem send_long_message_chunks (url : Option Str) (r : Str → Nat) (msg : Str)
    (t : Trace) (hurl : pyFalsy url = false)
    (hlen : max_len < msg.length)
    (hlines : ∀ l ∈ splitNl msg, l.length ≤ max_len - 1)
    (hlast : allWS ((splitNl msg).getLastD []) = false) :
    1 < (newPosts url r msg t).length ∧
      ∀ c ∈ newPosts url r msg t, c.length ≤ max_len := by
  rw [newPosts_eq url r msg t hurl]
  have hspec := sendGo_spec (splitNl msg) [] (by simp) (mem_splitNl_noNl msg)
  rw [joinNl_nil] at hspec
  obtain ⟨k, hk, hjoin, hdrop, hchunks⟩ := hspec
  simp only [List.nil_append] at hk hjoin hdrop
  have hkeq : k = (splitNl msg).length := by
    rcases Nat.lt_or_ge k (splitNl msg).length with hlt | hge
    · have hmem := getLastD_mem_drop (splitNl msg) k [] hlt
      have hws := hdrop _ hmem
      rw [hws] at hlast
      simp at hlast
    · exact Nat.le_antisymm hk hge
  subst hkeq
  rw [List.take_length] at hjoin
  have hbound : ∀ c ∈ sendGo [] (splitNl msg), c.length ≤ max_len :=
    sendGo_len (splitNl msg) [] hlines (by simp)
  refine ⟨?_, hbound⟩
  have hflat : (sendGo [] (splitNl msg)).flatten = msg ++ ['\n'] := by
    rw [flatten_eq_joinNl _ hchunks, hjoin, joinNl_splitNl]
  have htot := flatten_length_le _ hbound
  rw [hflat] at htot
  simp only [List.length_append, List.length_cons, List.length_nil] at htot
  simp only [max_len] at htot hlen
  omega

/-- Witness for C1 (amended) at a 2001-character, two-line message. -/
theorem send_long_message_chunks_witness :
    1 < (newPosts urlW okResponder msgTwoLines {}).length ∧
      ∀ c ∈ newPosts urlW okResponder msgTwoLines {}, c.length ≤ max_len := by
  have hsp : splitNl msgTwoLines = [List.replicate 1000 'a', List.replicate 1000 'b'] := by
    unfold msgTwoLines
    rw [splitNl_append_noNl _ (by simp only [List.mem_replicate]; decide)]
    rw [splitNl_noNl (by simp only [List.mem_replicate]; decide)]
  refine send_long_message_chunks urlW okResponder msgTwoLines {} rfl ?_ ?_ ?_
  · unfold msgTwoLines
    simp only [List.length_append, List.length_cons, List.length_replicate, max_len]
    omega
  · rw [hsp]
    intro l hl
    simp only [List.mem_cons, List.not_mem_nil, or_false] at hl
    rcases hl with rfl | rfl <;>
      simp only [List.length_replicate, max_len] <;> omega
  · rw [hsp]
    simp only [List.getLastD_cons, List.getLastD_nil]
    exact allWS_replicate_false 1000 'b' (by decide) (by decide)

/-- Evaluation of the chunking loop on `cexBlankTail`: a single delivery. -/
theorem cexBlankTail_posts :
    newPosts urlW okResponder cexBlankTail {} = [List.replicate 1899 'a' ++ ['\n']] := by
  rw [newPosts_eq urlW okResponder cexBlankTail {} rfl]
  have hsp : splitNl cexBlankTail = [List.replicate 1899 'a', [' ']] := by
    unfold cexBlankTail
    rw [show List.replicate 1899 'a' ++ ['\n', ' ']
        = List.replicate 1899 'a' ++ '\n' :: [' '] from rfl]
    rw [splitNl_append_noNl _ (by simp only [List.mem_replicate]; decide)]
    rw [splitNl_noNl (by decide)]
  rw [hsp]
  rw [sendGo_cons_eq, if_neg (by
    simp only [List.length_nil, List.length_replicate, max_len]
    omega)]
  rw [sendGo_cons_eq, if_pos (by
    simp only [List.length_append, List.length_nil, List.length_cons,
      List.length_replicate, max_len]
    omega)]
  rw [sendGo_nil_eq, if_pos (by decide)]
  simp only [List.nil_append]

/-- Evaluation of the chunking loop on the single 2000-character line: two
deliveries, the second exceeding the threshold. -/
theorem cexLongLine_posts :
    newPosts urlW okResponder cexLongLine {} = [[], cexLongLine ++ ['\n']] := by
  rw [newPosts_eq urlW okResponder cexLongLine {} rfl]
  rw [show splitNl cexLongLine = [cexLongLine] from
    splitNl_noNl (by simp only [cexLongLine, List.mem_replicate]; decide)]
  have h2 : (List.replicate 2000 'a').all pyIsSpace = false :=
    allWS_replicate_false 2000 'a' (by decide) (by decide)
  have h1 : ¬ pyStrip (cexLongLine ++ ['\n']) = [] := by
    intro hcontra
    rw [pyStrip_eq_nil_iff] at hcontra
    unfold allWS cexLongLine at hcontra
    rw [List.all_append, h2] at hcontra
    simp at hcontra
  rw [sendGo_cons_eq, if_pos (by
    simp only [cexLongLine, List.length_nil, List.length_replicate, max_len]
    omega)]
  rw [sendGo_nil_eq, if_neg h1]

/-- Counterexample to C1 as stated: `cexBlankTail` is longer than 1900
characters yet produces a single delivery call, and `cexLongLine` is longer
than 1900 characters yet produces a delivered chunk of 2001 characters. -/
theorem send_long_message_chunks_cex :
    (max_len < cexBlankTail.length
        ∧ ¬ 1 < (newPosts urlW okResponder cexBlankTail {}).length)
    ∧ (max_len < cexLongLine.length
        ∧ ¬ ∀ c ∈ newPosts urlW okResponder cexLongLine {}, c.length ≤ max_len) := by
  refine ⟨⟨?_, ?_⟩, ?_, ?_⟩
  · unfold cexBlankTail
    simp only [List.length_append, List.length_cons, List.length_nil,
      List.length_replicate, max_len]
    omega
  · rw [cexBlankTail_posts]
    simp only [List.length_cons, List.length_nil]
    omega
  · unfold cexLongLine
    simp only [List.length_replicate, max_len]
    omega
  · rw [cexLongLine_posts]
    intro h
    have hlen := h (cexLongLine ++ ['\n'])
      (List.mem_cons_of_mem _ (List.mem_cons_self _ _))
    simp only [cexLongLine, List.length_append, List.length_cons, List.length_nil,
      List.length_replicate, max_len] at hlen
    omega

/-- C2 (amended): the delivered chunks break only at line boundaries (each
chunk is a newline-join of whole lines), and their concatenated line content
reproduces, in order, a prefix of the message's lines; only trailing
whitespace-only lines can be left undelivered. -/
theorem send_chunks_line_structure (url : Option Str) (r : Str → Nat)
    (msg : Str) (t : Trace) (hurl : pyFalsy url = false) :
    ∃ k, k ≤ (splitNl msg).length ∧
      ((newPosts url r msg t).map chunkLines).flatten = (splitNl msg).take k ∧
      (∀ l ∈ (splitNl msg).drop k, allWS l = true) ∧
      (∀ c ∈ newPosts url r msg t, c = joinNl (chunkLines c)) := by
  rw [newPosts_eq url r msg t hurl]
  have hspec := sendGo_spec (splitNl msg) [] (by simp) (mem_splitNl_noNl msg)
  rw [joinNl_nil] at hspec
  simpa using hspec

/-- Witness for C2 (amended) at the two-line message `"a\nb"`. -/
theorem send_chunks_line_structure_witness :
    ∃ k, k ≤ (splitNl msgSmall).length ∧
      ((newPosts urlW okResponder msgSmall {}).map chunkLines).flatten
          = (splitNl msgSmall).take k ∧
      (∀ l ∈ (splitNl msgSmall).drop k, allWS l = true) ∧
      (∀ c ∈ newPosts urlW okResponder msgSmall {}, c = joinNl (chunkLines c)) :=
  send_chunks_line_structure urlW okResponder msgSmall {} rfl

/-- Counterexample to C2 as stated: the one-line message `" "` yields no
delivery at all, so the delivered chunks' line content does not reproduce
the message's lines. -/
theorem send_chunks_line_structure_cex :
    ((newPosts urlW okResponder msgSpace {}).map chunkLines).flatten
      ≠ splitNl msgSpace := by
  decide

/-- C3: when the translation service raises for a non-empty text,
`translate_text` catches the exception, logs a diagnostic, and returns the
original input text unchanged, so translation failure never aborts the run. -/
theorem translate_text_error_fallback (tr : Translator) (text target : Str)
    (t : Trace) (e : Str) (htext : text ≠ [])
    (herr : tr text target = Except.error e) :
    (translate_text tr text target t).1 = text ∧
      (translate_text tr text target t).2.logs
        = t.logs ++ [LogEntry.translateError e] := by
  unfold translate_text
  rw [if_neg htext, herr]
  exact ⟨rfl, rfl⟩

/-- Witness for C3: an always-raising service on the text `"x"`. -/
theorem translate_text_error_fallback_witness :
    (translate_text errTranslator "x".data "en".data {}).1 = "x".data ∧
      (translate_text errTranslator "x".data "en".data {}).2.logs
        = ({} : Trace).logs ++ [LogEntry.translateError "boom".data] :=
  translate_text_error_fallback errTranslator "x".data "en".data {} "boom".data
    (by decide) rfl

theorem translate_text_nil (tr : Translator) (target : Str) (t : Trace) :
    translate_text tr [] target t = ([], t) := by
  unfold translate_text
  rw [if_pos rfl]

/-- C4: translating the empty string returns the empty string and leaves the
trace untouched — in particular no call to the external service is made. -/
theorem translate_text_empty (tr : Translator) (target : Str) (t : Trace) :
    translate_text tr [] target t = ([], t) :=
  translate_text_nil tr target t

/-- The translated text returned by `translate_text` does not depend on the
ambient trace. -/
theorem translate_text_fst (tr : Translator) (x d : Str) (t t' : Trace) :
    (translate_text tr x d t).1 = (translate_text tr x d t').1 := by
  unfold translate_text
  by_cases h : x = []
  · rw [if_pos h, if_pos h]
  · rw [if_neg h, if_neg h]
    rcases htr : tr x d with e | r <;> rfl

/-- `translate_text` records exactly one service call, for non-empty input. -/
theorem translate_text_calls (tr : Translator) (x d : Str) (t : Trace) :
    (translate_text tr x d t).2.translateCalls
      = t.translateCalls ++ (if x = [] then [] else [(x, d)]) := by
  unfold translate_text
  by_cases h : x = []
  · rw [if_pos h, if_pos h]
    simp
  · rw [if_neg h, if_neg h]
    rcases htr : tr x d with e | r <;> rfl

/-- `translate_news_list` yields one output article per input article. -/
theorem translate_news_list_length (tr : Translator) (news : List Article)
    (dest : Str) : ∀ t : Trace,
    (translate_news_list tr news dest t).1.length = news.length := by
  induction news with
  | nil => intro t; rfl
  | cons item rest ih =>
    intro t
    simp only [translate_news_list, List.length_cons]
    rw [ih]

/-- Per-index content of `translate_news_list`: url copied, title and
description each the translation of the corresponding input field. -/
theorem translate_news_list_get (tr : Translator) (news : List Article)
    (dest : Str) : ∀ (t : Trace) (i : Nat),
    ((translate_news_list tr news dest t).1[i]?).map Article.url
        = (news[i]?).map Article.url ∧
    ((translate_news_list tr news dest t).1[i]?).map Article.title
        = (news[i]?).map (fun a => (translate_text tr a.title dest t).1) ∧
    ((translate_news_list tr news dest t).1[i]?).map Article.description
        = (news[i]?).map (fun a => (translate_text tr a.description dest t).1) := by
  induction news with
  | nil => intro t i; simp [translate_news_list]
  | cons item rest ih =>
    intro t i
    cases i with
    | zero =>
      simp only [translate_news_list, List.getElem?_cons_zero, Option.map_some']
      refine ⟨by trivial, by trivial, ?_⟩
      by_cases hdesc : item.description = []
      · rw [if_pos hdesc, hdesc, translate_text_nil]
      · rw [if_neg hdesc]
        exact congrArg some (translate_text_fst tr item.description dest _ t)
    | succ i =>
      simp only [translate_news_list, List.getElem?_cons_succ]
      refine ⟨(ih _ i).1, Eq.trans ((ih _ i).2.1) ?_, Eq.trans ((ih _ i).2.2) ?_⟩
      · rcases rest[i]? with _ | a
        · rfl
        · exact congrArg some (translate_text_fst tr a.title dest _ t)
      · rcases rest[i]? with _ | a
        · rfl
        · exact congrArg some (translate_text_fst tr a.description dest _ t)

/-- The calls `translate_news_list` makes: per article, its title (when
non-empty) then its description (when non-empty) — never its url. -/
theorem translate_news_list_calls (tr : Translator) (news : List Article)
    (dest : Str) : ∀ t : Trace,
    (translate_news_list tr news dest t).2.translateCalls
      = t.translateCalls ++ (news.map (fun a => transCallsOf a dest)).flatten := by
  induction news with
  | nil => intro t; simp [translate_news_list]
  | cons item rest ih =>
    intro t
    simp only [translate_news_list, List.map_cons, List.flatten_cons]
    rw [ih]
    by_cases hdesc : item.description = []
    · rw [if_pos hdesc, translate_text_calls]
      simp only [transCallsOf, if_pos hdesc, List.append_nil, List.append_assoc]
    · rw [if_neg hdesc, translate_text_calls, translate_text_calls, if_neg hdesc]
      simp only [transCallsOf, if_neg hdesc, List.append_assoc]

/-- C5: `translate_news_list` preserves length and order — the entry at
index `i` is derived from the input article at index `i`, with the url field
copied through unchanged — and the translation service is called only on
titles and non-empty descriptions, never on urls. -/
theorem translate_news_list_spec (tr : Translator) (news : List Article)
    (dest : Str) (t : Trace) :
    (translate_news_list tr news dest t).1.length = news.length ∧
    (∀ i : Nat,
      ((translate_news_list tr news dest t).1[i]?).map Article.url
          = (news[i]?).map Article.url ∧
      ((translate_news_list tr news dest t).1[i]?).map Article.title
          = (news[i]?).map (fun a => (translate_text tr a.title dest t).1) ∧
      ((translate_news_list tr news dest t).1[i]?).map Article.description
          = (news[i]?).map (fun a => (translate_text tr a.description dest t).1)) ∧
    (translate_news_list tr news dest t).2.translateCalls
      = t.translateCalls ++ (news.map (fun a => transCallsOf a dest)).flatten :=
  ⟨translate_news_list_length tr news dest t,
   fun i => translate_news_list_get tr news dest t i,
   translate_news_list_calls tr news dest t⟩

/-- Structural facts about the fetch filter: every kept article has a
non-empty (stripped) title, and exactly the candidates whose stripped title
is non-empty are kept. -/
theorem fetch_filter_spec : ∀ (raws : List RawArticle),
    (∀ a ∈ fetch_filter raws, a.title ≠ []) ∧
    (fetch_filter raws).length
      = (raws.filter (fun a => !(pyStrip (pyOr a.title)).isEmpty)).length := by
  intro raws
  induction raws with
  | nil => exact ⟨by simp [fetch_filter], by simp [fetch_filter]⟩
  | cons a rest ih =>
    by_cases h : pyStrip (pyOr a.title) = []
    · refine ⟨?_, ?_⟩
      · simp only [fetch_filter, if_pos h]
        exact ih.1
      · simp only [fetch_filter, if_pos h, List.filter_cons, h]
        simp [ih.2]
    · refine ⟨?_, ?_⟩
      · simp only [fetch_filter, if_neg h]
        intro x hx
        rcases List.mem_cons.mp hx with rfl | hx
        · exact h
        · exact ih.1 x hx
      · simp only [fetch_filter, if_neg h, List.filter_cons, List.length_cons]
        have hb : (!(pyStrip (pyOr a.title)).isEmpty) = true := by
          rcases hsp : pyStrip (pyOr a.title) with _ | ⟨c, cs⟩
          · exact absurd hsp h
          · rfl
        rw [hb]
        simp [ih.2]

/-- C6: every article returned by a successful fetch has a non-empty
(stripped) title, and the candidates with a blank or whitespace-only title
are exactly the ones dropped. -/
theorem fetch_nonblank_titles (key : Option Str) (top : Nat)
    (resp : NewsResponse) (t : Trace) (res : List Article) (t' : Trace)
    (h : fetch_korean_stock_news key top resp t = (Except.ok res, t')) :
    (∀ a ∈ res, a.title ≠ []) ∧
      res.length = ((pyOrArticles resp.articles).filter
        (fun a => !(pyStrip (pyOr a.title)).isEmpty)).length := by
  unfold fetch_korean_stock_news at h
  split at h
  · simp at h
  · split at h
    · simp at h
    · simp only [Prod.mk.injEq, Except.ok.injEq] at h
      rw [← h.1]
      exact fetch_filter_spec (pyOrArticles resp.articles)

/-- Witness for C6 on a response with one blank-titled and one titled
candidate. -/
theorem fetch_nonblank_titles_witness :
    (∀ a ∈ [({ title := "t".data, description := [], url := "u".data } : Article)],
        a.title ≠ []) ∧
      ([({ title := "t".data, description := [], url := "u".data } : Article)]).length
        = ((pyOrArticles respMixed.articles).filter
            (fun a => !(pyStrip (pyOr a.title)).isEmpty)).length :=
  fetch_nonblank_titles (some "k".data) 5 respMixed {}
    [{ title := "t".data, description := [], url := "u".data }]
    { newsRequests := [5],
      logs := [LogEntry.newsApiSummary (some "ok".data) (some 2)] }
    rfl

/-- C7: a missing credential makes the dependent step raise the
`RuntimeError` naming the missing environment variable, with the trace
returned unchanged — so no network call of that step has happened. -/
theorem missing_credential_aborts (key : Option Str) (top : Nat)
    (resp : NewsResponse) (t : Trace) (url : Option Str) (r : Str → Nat)
    (msg : Str) (t' : Trace) :
    (pyFalsy key = true →
      fetch_korean_stock_news key top resp t
          = (Except.error (RunError.config newsKeyMissingMsg), t) ∧
      strContains newsKeyMissingMsg "NEWS_API_KEY".data = true) ∧
    (pyFalsy url = true →
      send_to_discord url r msg t'
          = (Except.error (RunError.config webhookMissingMsg), t') ∧
      strContains webhookMissingMsg "DISCORD_WEBHOOK_URL".data = true) := by
  constructor
  · intro h
    refine ⟨?_, by decide⟩
    unfold fetch_korean_stock_news
    rw [if_pos h]
  · intro h
    refine ⟨?_, by decide⟩
    unfold send_to_discord
    rw [if_pos h]

/-- Witness for C7 with both credentials absent. -/
theorem missing_credential_aborts_witness :
    (fetch_korean_stock_news none 5 respEmpty {}
        = (Except.error (RunError.config newsKeyMissingMsg), {}) ∧
      strContains newsKeyMissingMsg "NEWS_API_KEY".data = true) ∧
    (send_to_discord none okResponder msgSmall {}
        = (Except.error (RunError.config webhookMissingMsg), {}) ∧
      strContains webhookMissingMsg "DISCORD_WEBHOOK_URL".data = true) :=
  ⟨(missing_credential_aborts none 5 respEmpty {} none okResponder msgSmall {}).1 rfl,
   (missing_credential_aborts none 5 respEmpty {} none okResponder msgSmall {}).2 rfl⟩

/-- C8: when the fetch step succeeds with zero articles, the run logs
"뉴스가 없습니다." and terminates successfully, with no translation-service
call and no webhook call. -/
theorem main_no_articles (env : Env)
    (hkey : pyFalsy env.newsApiKey = false)
    (hstat : ¬ (400 ≤ env.newsResponse.status ∧ env.newsResponse.status < 600))
    (hempty : fetch_filter (pyOrArticles env.newsResponse.articles) = []) :
    (main env).1 = Except.ok () ∧
      (main env).2.translateCalls = [] ∧
      (main env).2.webhookPosts = [] ∧
      LogEntry.noNews ∈ (main env).2.logs := by
  have hfetch : fetch_korean_stock_news env.newsApiKey TOP_N env.newsResponse
      { logs := [LogEntry.startMsg] }
      = (Except.ok [],
        { newsRequests := [TOP_N], translateCalls := [], webhookPosts := [],
          logs := [LogEntry.startMsg,
            LogEntry.newsApiSummary env.newsResponse.bodyStatus env.newsResponse.totalResults] }) := by
    unfold fetch_korean_stock_news
    rw [if_neg (by simp [hkey]), if_neg hstat, hempty]
    rfl
  unfold main
  rw [hfetch]
  refine ⟨rfl, rfl, rfl, ?_⟩
  simp

/-- Witness for C8 on an environment whose news API returns no articles. -/
theorem main_no_articles_witness :
    (main envEmpty).1 = Except.ok () ∧
      (main envEmpty).2.translateCalls = [] ∧
      (main envEmpty).2.webhookPosts = [] ∧
      LogEntry.noNews ∈ (main envEmpty).2.logs :=
  main_no_articles envEmpty rfl (by decide) rfl

theorem digitChar_toNat : ∀ d, d < 10 → (digitChar d).toNat = 48 + d := by decide

theorem natToStrGo_zero_n : ∀ (fuel : Nat) (acc : Str), natToStrGo fuel 0 acc = acc := by
  intro fuel acc
  cases fuel <;> simp [natToStrGo]

theorem natToStrGo_head : ∀ (fuel n : Nat) (acc : Str), n ≠ 0 → n ≤ fuel →
    ∃ c cs, natToStrGo fuel n acc = c :: cs ∧ 48 ≤ c.toNat ∧ c.toNat ≤ 57 := by
  intro fuel
  induction fuel with
  | zero => intro n acc hn hle; omega
  | succ fuel ih =>
    intro n acc hn hle
    simp only [natToStrGo, if_neg hn]
    by_cases h10 : n / 10 = 0
    · rw [h10, natToStrGo_zero_n]
      have hm : n % 10 < 10 := Nat.mod_lt _ (by decide)
      refine ⟨digitChar (n % 10), acc, rfl, ?_, ?_⟩
      · rw [digitChar_toNat _ hm]
        omega
      · rw [digitChar_toNat _ hm]
        omega
    · have hlt : n / 10 < n := Nat.div_lt_self (Nat.pos_of_ne_zero hn) (by decide)
      exact ih (n / 10) _ h10 (by omega)

/-- The decimal rendering of any number starts with a digit character. -/
theorem natToStr_head (i : Nat) :
    ∃ c cs, natToStr i = c :: cs ∧ 48 ≤ c.toNat ∧ c.toNat ≤ 57 := by
  unfold natToStr
  by_cases h : i = 0
  · rw [if_pos h]
    exact ⟨'0', [], rfl, by decide, by decide⟩
  · rw [if_neg h]
    exact natToStrGo_head i i [] h (Nat.le_refl i)

theorem strStarts_append (p x : Str) : strStarts p (p ++ x) = true := by
  induction p with
  | nil => rfl
  | cons a ps ih => simp [strStarts, ih]

theorem strStarts_cons_ne {a c : Char} (h : a ≠ c) (ps cs : Str) :
    strStarts (a :: ps) (c :: cs) = false := by
  simp [strStarts, h]

/-- Title lines start with a digit, so they are never summary lines. -/
theorem isSummaryLine_title (i : Nat) (n : Article) :
    isSummaryLine (numTitleLine i n) = false := by
  obtain ⟨c, cs, heq, h48, _⟩ := natToStr_head i
  unfold isSummaryLine numTitleLine
  rw [heq]
  have hne : (' ' : Char) ≠ c := by
    intro hch
    rw [← hch] at h48
    exact absurd h48 (by decide)
  rw [show sumMarker = ' ' :: "  - ".data from rfl]
  rw [show ((c :: cs) ++ ". ".data ++ n.title) = c :: (cs ++ ". ".data ++ n.title)
    from by simp]
  exact strStarts_cons_ne hne _ _

/-- Title lines start with a digit, so they are never link lines. -/
theorem isLinkLine_title (i : Nat) (n : Article) :
    isLinkLine (numTitleLine i n) = false := by
  obtain ⟨c, cs, heq, h48, _⟩ := natToStr_head i
  unfold isLinkLine numTitleLine
  rw [heq]
  have hne : (' ' : Char) ≠ c := by
    intro hch
    rw [← hch] at h48
    exact absurd h48 (by decide)
  rw [show linkMarker = ' ' :: "  링크: ".data from rfl]
  rw [show ((c :: cs) ++ ". ".data ++ n.title) = c :: (cs ++ ". ".data ++ n.title)
    from by simp]
  exact strStarts_cons_ne hne _ _

theorem isSummaryLine_koSum (n : Article) : isSummaryLine (koSummaryLine n) = true := by
  unfold isSummaryLine koSummaryLine
  rw [show "   - 요약: ".data = sumMarker ++ "요약: ".data from rfl, List.append_assoc]
  exact strStarts_append _ _

theorem isSummaryLine_enSum (n : Article) : isSummaryLine (enSummaryLine n) = true := by
  unfold isSummaryLine enSummaryLine
  rw [show "   - Summary: ".data = sumMarker ++ "Summary: ".data from rfl,
    List.append_assoc]
  exact strStarts_append _ _

theorem isSummaryLine_zhSum (n : Article) : isSummaryLine (zhSummaryLine n) = true := by
  unfold isSummaryLine zhSummaryLine
  rw [show "   - 摘要: ".data = sumMarker ++ "摘要: ".data from rfl, List.append_assoc]
  exact strStarts_append _ _

theorem isSummaryLine_koLink (n : Article) : isSummaryLine (koLinkLine n) = false := by
  show strStarts (' ' :: ' ' :: ' ' :: '-' :: ' ' :: [])
    (' ' :: ' ' :: ' ' :: '링' :: ("크: ".data ++ n.url)) = false
  simp [strStarts]

theorem isLinkLine_koSum (n : Article) : isLinkLine (koSummaryLine n) = false := by
  show strStarts (' ' :: ' ' :: ' ' :: '링' :: '크' :: ':' :: ' ' :: [])
    (' ' :: ' ' :: ' ' :: '-' :: (" 요약: ".data ++ pyStrip (replaceNl n.description)))
      = false
  simp [strStarts]

theorem isLinkLine_enSum (n : Article) : isLinkLine (enSummaryLine n) = false := by
  show strStarts (' ' :: ' ' :: ' ' :: '링' :: '크' :: ':' :: ' ' :: [])
    (' ' :: ' ' :: ' ' :: '-' :: (" Summary: ".data ++ pyStrip (replaceNl n.description)))
      = false
  simp [strStarts]

theorem isLinkLine_zhSum (n : Article) : isLinkLine (zhSummaryLine n) = false := by
  show strStarts (' ' :: ' ' :: ' ' :: '링' :: '크' :: ':' :: ' ' :: [])
    (' ' :: ' ' :: ' ' :: '-' :: (" 摘要: ".data ++ pyStrip (replaceNl n.description)))
      = false
  simp [strStarts]

theorem isLinkLine_koLink (n : Article) : isLinkLine (koLinkLine n) = true := by
  show strStarts linkMarker (linkMarker ++ n.url) = true
  exact strStarts_append _ _

theorem isSummaryLine_nil : isSummaryLine [] = false := rfl

theorem isLinkLine_nil : isLinkLine [] = false := rfl

/-- Summary/link line counts of the Korean section. -/
theorem koSection_counts : ∀ (ns : List Article) (i : Nat),
    List.countP isSummaryLine (koSection i ns)
        = List.countP (fun a => !a.description.isEmpty) ns ∧
    List.countP isLinkLine (koSection i ns)
        = List.countP (fun a => !a.url.isEmpty) ns := by
  intro ns
  induction ns with
  | nil => intro i; exact ⟨rfl, rfl⟩
  | cons n rest ih =>
    intro i
    rcases ih (i + 1) with ⟨ih1, ih2⟩
    by_cases hdesc : n.description = [] <;> by_cases hurl : n.url = [] <;>
      simp [koSection, hdesc, hurl, List.countP_append, List.countP_cons,
        isSummaryLine_title, isLinkLine_title, isSummaryLine_koSum,
        isLinkLine_koSum, isSummaryLine_koLink, isLinkLine_koLink,
        isSummaryLine_nil, isLinkLine_nil, ih1, ih2]

/-- Summary/link line counts of the English section: no link line at all. -/
theorem enSection_counts : ∀ (ns : List Article) (i : Nat),
    List.countP isSummaryLine (enSection i ns)
        = List.countP (fun a => !a.description.isEmpty) ns ∧
    List.countP isLinkLine (enSection i ns) = 0 := by
  intro ns
  induction ns with
  | nil => intro i; exact ⟨rfl, rfl⟩
  | cons n rest ih =>
    intro i
    rcases ih (i + 1) with ⟨ih1, ih2⟩
    by_cases hdesc : n.description = [] <;>
      simp [enSection, hdesc, List.countP_append, List.countP_cons,
        isSummaryLine_title, isLinkLine_title, isSummaryLine_enSum,
        isLinkLine_enSum, isSummaryLine_nil, isLinkLine_nil, ih1, ih2]

/-- Summary/link line counts of the Chinese section: no link line at all. -/
theorem zhSection_counts : ∀ (ns : List Article) (i : Nat),
    List.countP isSummaryLine (zhSection i ns)
        = List.countP (fun a => !a.description.isEmpty) ns ∧
    List.countP isLinkLine (zhSection i ns) = 0 := by
  intro ns
  induction ns with
  | nil => intro i; exact ⟨rfl, rfl⟩
  | cons n rest ih =>
    intro i
    rcases ih (i + 1) with ⟨ih1, ih2⟩
    by_cases hdesc : n.description = [] <;>
      simp [zhSection, hdesc, List.countP_append, List.countP_cons,
        isSummaryLine_title, isLinkLine_title, isSummaryLine_zhSum,
        isLinkLine_zhSum, isSummaryLine_nil, isLinkLine_nil, ih1, ih2]

/-- C9: in the digest's line list, there are exactly as many summary lines as
articles with a non-empty description (one per such article, per language
section), and exactly as many link lines as Korean-section articles with a
non-empty url — in particular an empty description never yields a summary
line, an empty url never yields a link line, and the English and Chinese
sections never yield a link line. -/
theorem build_message_digest_lines (ko en zh : List Article) :
    List.countP isSummaryLine (build_message_lines ko en zh)
        = List.countP (fun a => !a.description.isEmpty) ko
          + List.countP (fun a => !a.description.isEmpty) en
          + List.countP (fun a => !a.description.isEmpty) zh ∧
    List.countP isLinkLine (build_message_lines ko en zh)
        = List.countP (fun a => !a.url.isEmpty) ko ∧
    List.countP isSummaryLine (koSection 1 ko)
        = List.countP (fun a => !a.description.isEmpty) ko ∧
    List.countP isSummaryLine (enSection 1 en)
        = List.countP (fun a => !a.description.isEmpty) en ∧
    List.countP isSummaryLine (zhSection 1 zh)
        = List.countP (fun a => !a.description.isEmpty) zh ∧
    List.countP isLinkLine (koSection 1 ko)
        = List.countP (fun a => !a.url.isEmpty) ko ∧
    List.countP isLinkLine (enSection 1 en) = 0 ∧
    List.countP isLinkLine (zhSection 1 zh) = 0 := by
  rcases koSection_counts ko 1 with ⟨k1, k2⟩
  rcases enSection_counts en 1 with ⟨e1, e2⟩
  rcases zhSection_counts zh 1 with ⟨z1, z2⟩
  have h1s : isSummaryLine "**오늘의 한국 주식 TOP 5 뉴스**\n".data = false := by decide
  have h2s : isSummaryLine "=== 🇰🇷 한국어 ===".data = false := by decide
  have h3s : isSummaryLine "=== 🇺🇸 English ===".data = false := by decide
  have h4s : isSummaryLine "=== 🇨🇳 中文(简体) ===".data = false := by decide
  have h1l : isLinkLine "**오늘의 한국 주식 TOP 5 뉴스**\n".data = false := by decide
  have h2l : isLinkLine "=== 🇰🇷 한국어 ===".data = false := by decide
  have h3l : isLinkLine "=== 🇺🇸 English ===".data = false := by decide
  have h4l : isLinkLine "=== 🇨🇳 中文(简体) ===".data = false := by decide
  refine ⟨?_, ?_, k1, e1, z1, k2, e2, z2⟩
  · unfold build_message_lines
    simp [List.countP_append, List.countP_cons, h1s, h2s, h3s, h4s, k1, e1, z1]
    omega
  · unfold build_message_lines
    simp [List.countP_append, List.countP_cons, h1l, h2l, h3l, h4l, k2, e2, z2]

end StockNews
